import Mathlib

/-
Verification of the metadata-aggregation and rendering engine of
tools/kmod-modinfo.c (kmod).  The C code is shallowly embedded: the
parameter linked list becomes a Lean list, printf emissions become a list
of strings, LOG emissions become a list of diagnostics, and malloc is
driven by an explicit oracle of boolean outcomes so that the out-of-memory
path is representable.
-/

namespace Modinfo

/-- One node of the parameter list built by the C function add_param: the
parameter name, the optional description (C field param) and the optional
type string.  The C namelen, paramlen and typelen fields are the lengths
of the corresponding strings and are subsumed by the Lean strings. -/
structure Param where
  name : String
  param : Option String
  type : Option String
  deriving DecidableEq, Repr

/-- The two guarded assignments at the end of add_param: a non-NULL param
or type argument overwrites the stored field, a NULL one leaves it. -/
def set_fields (it : Param) (param : Option String) (ptype : Option String) : Param :=
  ⟨it.name, if param.isSome then param else it.param,
    if ptype.isSome then ptype else it.type⟩

/-- Update the first node whose name matches, as the search loop of
add_param stops at the first match in the linked list. -/
def update_first (name : String) (param ptype : Option String) :
    List Param → List Param
  | [] => []
  | it :: rest =>
    if it.name == name then set_fields it param ptype :: rest
    else it :: update_first name param ptype rest

/-- The C function add_param.  The linked list is a Lean list whose head
is the most recently inserted node, because the C code prepends new nodes
(it->next = *list; *list = it).  The allocs list is an oracle for malloc:
when a new node must be allocated the head outcome is consumed, and false
makes the allocation fail (add_param returns NULL, modelled as none); an
exhausted oracle means every allocation succeeds. -/
def add_param (name : String) (param ptype : Option String) (list : List Param)
    (allocs : List Bool) : Option (List Param) × List Bool :=
  if list.any (fun it => it.name == name) then
    (some (update_first name param ptype list), allocs)
  else
    match allocs with
    | [] => (some (set_fields ⟨name, none, none⟩ param ptype :: list), [])
    | true :: restA => (some (set_fields ⟨name, none, none⟩ param ptype :: list), restA)
    | false :: restA => (none, restA)

/-- add_param in the case where every allocation succeeds. -/
def add_param_total (name : String) (param ptype : Option String)
    (list : List Param) : List Param :=
  if list.any (fun it => it.name == name) then update_first name param ptype list
  else set_fields ⟨name, none, none⟩ param ptype :: list

/-- Split a character list at the first occurrence of c, as strchr does. -/
def splitFirstAux (c : Char) : List Char → Option (List Char × List Char)
  | [] => none
  | x :: xs =>
    if x == c then some ([], xs)
    else
      match splitFirstAux c xs with
      | none => none
      | some lr => some (x :: lr.1, lr.2)

/-- strchr(value, c) together with the two substrings the caller takes:
none when c does not occur in the string, otherwise the substring before
the first occurrence and the substring after it. -/
def splitFirst (c : Char) (s : String) : Option (String × String) :=
  match splitFirstAux c s.data with
  | none => none
  | some lr => some (String.mk lr.1, String.mk lr.2)

/-- printf %-16s style left justification with trailing spaces. -/
def leftJustify (s : String) (width : Nat) : String :=
  s ++ String.mk (List.replicate (width - s.length) ' ')

/-- The padding printed after the colon of a key in default newline mode:
printf %-*s with width 15 - keylen applied to the empty string.  printf
treats a negative field width as the absolute value with left
justification, so the number of spaces is the absolute value. -/
def keyPad (keylen : Nat) : String :=
  String.mk (List.replicate (Int.natAbs (15 - (keylen : Int))) ' ')

/-- Diagnostics written with the LOG macro to stderr. -/
inductive Diag where
  | invalidParam (key value : String)
  | oom
  | noInfo (name : String)
  | fileNotFound (path : String)
  | aliasNotFound (name : String)
  deriving DecidableEq, Repr

/-- Process wide rendering configuration: the separator character and the
optional field filter (the C globals separator and field). -/
structure RenderConfig where
  separator : Char
  field : Option String
  deriving DecidableEq, Repr

/-- Result of the kmod_list_foreach loop in modinfo_do: stdout emissions,
stderr diagnostics, the accumulated parameter list, the remaining
allocation oracle and whether the out-of-memory goto end was taken. -/
structure LoopOut where
  out : List String
  errs : List Diag
  params : List Param
  allocs : List Bool
  oom : Bool
  deriving DecidableEq, Repr

/-- The kmod_list_foreach loop of modinfo_do, one iteration per raw
(key, value) pair.  Note that the loop compares the key of a parameter
record against the string "param" when deciding which field of the entry
to fill, although only keys "parm" and "parmtype" reach that comparison. -/
def modinfo_loop (cfg : RenderConfig) :
    List (String × String) → List Param → List Bool → LoopOut
  | [], params, allocs => ⟨[], [], params, allocs, false⟩
  | (key, value) :: rest, params, allocs =>
    match cfg.field with
    | some f =>
      if key == f then
        let r := modinfo_loop cfg rest params allocs
        ⟨value.push cfg.separator :: r.out, r.errs, r.params, r.allocs, r.oom⟩
      else modinfo_loop cfg rest params allocs
    | none =>
      if key == "parm" || key == "parmtype" then
        match splitFirst ':' value with
        | none =>
          let r := modinfo_loop cfg rest params allocs
          ⟨r.out, Diag.invalidParam key value :: r.errs, r.params, r.allocs, r.oom⟩
        | some nr =>
          match add_param nr.1 (if key == "param" then some nr.2 else none)
              (if key == "param" then none else some nr.2) params allocs with
          | (none, allocs2) => ⟨[], [Diag.oom], params, allocs2, true⟩
          | (some params2, allocs2) => modinfo_loop cfg rest params2 allocs2
      else
        let line :=
          if cfg.separator == Char.ofNat 0 then (key ++ "=" ++ value).push cfg.separator
          else (key ++ ":" ++ keyPad key.length ++ value).push cfg.separator
        let r := modinfo_loop cfg rest params allocs
        ⟨line :: r.out, r.errs, r.params, r.allocs, r.oom⟩

/-- printf %.*s applied to an optional C string with its stored length: a
NULL pointer is always paired with length 0 and prints nothing. -/
def optStr : Option String → String
  | some s => s
  | none => ""

/-- One line of the final parameter walk in modinfo_do. -/
def render_param (sep : Char) (p : Param) : String :=
  match p.param with
  | none => (leftJustify "parm:" 16 ++ p.name ++ ":" ++ optStr p.type).push sep
  | some d =>
    match p.type with
    | some t => (leftJustify "parm:" 16 ++ p.name ++ d ++ " (" ++ t ++ ")").push sep
    | none => (leftJustify "parm:" 16 ++ p.name ++ d).push sep

/-- The final while loop of modinfo_do, printing the parameter list from
its head. -/
def render_params (sep : Char) (ps : List Param) : List String :=
  ps.map (render_param sep)

/-- A resolved module as the Record Source hands it to modinfo_do: its
canonical path, its name (used in diagnostics) and the outcome of
kmod_module_get_info, either a negative error code or the raw pair list
(on success the C function returns the number of entries). -/
structure ModInput where
  path : String
  name : String
  info : Except Int (List (String × String))

/-- Observable result of one of the modinfo functions: stdout emissions,
stderr diagnostics, the C return value and the remaining allocation
oracle. -/
structure DoResult where
  out : List String
  errs : List Diag
  ret : Int
  allocs : List Bool
  deriving DecidableEq, Repr

/-- modinfo_do after the filename special case: the optional synthetic
filename header, then kmod_module_get_info, then the loop, then the final
parameter walk.  The walk is skipped when a field filter is set or after
the out-of-memory goto; in both cases the function still returns the
nonnegative value kmod_module_get_info produced. -/
def modinfo_body (cfg : RenderConfig) (m : ModInput) (header : List String)
    (allocs : List Bool) : DoResult :=
  match m.info with
  | .error e => ⟨header, [Diag.noInfo m.name], e, allocs⟩
  | .ok pairs =>
    let r := modinfo_loop cfg pairs [] allocs
    let paramLines :=
      if r.oom || cfg.field.isSome then [] else render_params cfg.separator r.params
    ⟨header ++ r.out ++ paramLines, r.errs, (pairs.length : Int), r.allocs⟩

/-- The C function modinfo_do. -/
def modinfo_do (cfg : RenderConfig) (m : ModInput) (allocs : List Bool) : DoResult :=
  match cfg.field with
  | some f =>
    if f == "filename" then ⟨[m.path.push cfg.separator], [], 0, allocs⟩
    else modinfo_body cfg m [] allocs
  | none =>
    modinfo_body cfg m [(leftJustify "filename:" 16 ++ m.path).push cfg.separator] allocs

/-- One command line module identifier together with the resolution
outcome the external Record Source produces for it: a regular file goes
through kmod_module_new_from_path, anything else through
kmod_module_new_from_lookup, which may yield several modules.  Errors
carry the code the C resolution functions return. -/
inductive Ident where
  | file (path : String) (res : Except Int ModInput)
  | alias (name : String) (res : Except Int (List ModInput))

/-- The C function modinfo_path_do. -/
def modinfo_path_do (cfg : RenderConfig) (path : String)
    (res : Except Int ModInput) (allocs : List Bool) : DoResult :=
  match res with
  | .error e => ⟨[], [Diag.fileNotFound path], e, allocs⟩
  | .ok m => modinfo_do cfg m allocs

/-- The kmod_list_foreach loop of modinfo_alias_do: every resolved module
is processed and a negative modinfo_do result overwrites err. -/
def run_mods (cfg : RenderConfig) : List ModInput → DoResult → DoResult
  | [], acc => acc
  | m :: rest, acc =>
    let r := modinfo_do cfg m acc.allocs
    run_mods cfg rest
      ⟨acc.out ++ r.out, acc.errs ++ r.errs,
        if r.ret < 0 then r.ret else acc.ret, r.allocs⟩

/-- The C function modinfo_alias_do; a successful lookup leaves err at the
nonnegative value the lookup returned, modelled as 0. -/
def modinfo_alias_do (cfg : RenderConfig) (name : String)
    (res : Except Int (List ModInput)) (allocs : List Bool) : DoResult :=
  match res with
  | .error e => ⟨[], [Diag.aliasNotFound name], e, allocs⟩
  | .ok mods => run_mods cfg mods ⟨[], [], 0, allocs⟩

/-- Dispatch of one identifier in the main loop: the stat test decides
between the path route and the alias route; that decision is part of the
identifier model. -/
def runIdent (cfg : RenderConfig) (i : Ident) (allocs : List Bool) : DoResult :=
  match i with
  | .file p res => modinfo_path_do cfg p res allocs
  | .alias n res => modinfo_alias_do cfg n res allocs

/-- The for loop of main over the remaining command line arguments: err
starts at 0, a negative per-identifier result overwrites it, and every
identifier is processed. -/
def main_run (cfg : RenderConfig) : List Ident → DoResult → DoResult
  | [], acc => acc
  | i :: rest, acc =>
    let r := runIdent cfg i acc.allocs
    main_run cfg rest
      ⟨acc.out ++ r.out, acc.errs ++ r.errs,
        if r.ret < 0 then r.ret else acc.ret, r.allocs⟩

/-- The exit status of main: EXIT_SUCCESS (0) when the accumulated err is
nonnegative, EXIT_FAILURE (1) otherwise. -/
def main_exit (cfg : RenderConfig) (ids : List Ident) (allocs : List Bool) : Nat :=
  if (main_run cfg ids ⟨[], [], 0, allocs⟩).ret ≥ 0 then 0 else 1

/-- The stdout emission of one loop iteration in default mode; none for
parameter records, which never print inside the loop. -/
def defaultLine (sep : Char) (kv : String × String) : Option String :=
  if kv.1 == "parm" || kv.1 == "parmtype" then none
  else if sep == Char.ofNat 0 then some ((kv.1 ++ "=" ++ kv.2).push sep)
  else some ((kv.1 ++ ":" ++ keyPad kv.1.length ++ kv.2).push sep)

/-- The stderr diagnostic of one loop iteration in default mode. -/
def defaultErr (kv : String × String) : Option Diag :=
  if kv.1 == "parm" || kv.1 == "parmtype" then
    match splitFirst ':' kv.2 with
    | none => some (Diag.invalidParam kv.1 kv.2)
    | some _ => none
  else none

/-- The parameter list transition of one loop iteration in default mode
with every allocation succeeding. -/
def paramStep (ps : List Param) (kv : String × String) : List Param :=
  if kv.1 == "parm" || kv.1 == "parmtype" then
    match splitFirst ':' kv.2 with
    | none => ps
    | some nr =>
      add_param_total nr.1 (if kv.1 == "param" then some nr.2 else none)
        (if kv.1 == "param" then none else some nr.2) ps
  else ps

/-- Parameter names of the well-formed parm and parmtype records of a raw
pair list, in record order and with repetitions. -/
def wfParamNames : List (String × String) → List String
  | [] => []
  | kv :: rest =>
    if kv.1 == "parm" || kv.1 == "parmtype" then
      match splitFirst ':' kv.2 with
      | none => wfParamNames rest
      | some nr => nr.1 :: wfParamNames rest
    else wfParamNames rest

/-- Prepend a name unless it was seen already. -/
def seenStep (acc : List String) (n : String) : List String :=
  if n ∈ acc then acc else n :: acc

/-- Append a name unless it was seen already. -/
def firstSeenStep (acc : List String) (n : String) : List String :=
  if n ∈ acc then acc else acc ++ [n]

/-- The distinct names of a list, in first-seen order. -/
def firstSeen (ns : List String) : List String :=
  ns.foldl firstSeenStep []

/-- Every error code embedded in a module resolution is negative, as the
libkmod contract guarantees for kmod_module_get_info. -/
def modErrsNeg (m : ModInput) : Bool :=
  match m.info with
  | .error e => decide (e < 0)
  | .ok _ => true

/-- Every error code embedded in an identifier resolution is negative, as
the libkmod contract guarantees. -/
def identErrsNeg : Ident → Bool
  | .file _ (.error e) => decide (e < 0)
  | .file _ (.ok m) => modErrsNeg m
  | .alias _ (.error e) => decide (e < 0)
  | .alias _ (.ok mods) => mods.all modErrsNeg

/-- A resolved module contributes no negative modinfo_do result: either
the filename filter short-circuits, or metadata retrieval succeeds. -/
def modOk (cfg : RenderConfig) (m : ModInput) : Bool :=
  if cfg.field = some "filename" then true
  else
    match m.info with
    | .ok _ => true
    | .error _ => false

/-- An identifier contributes no negative result to the exit status:
resolution succeeds and each resolved module is ok. -/
def identOk (cfg : RenderConfig) : Ident → Bool
  | .file _ (.error _) => false
  | .file _ (.ok m) => modOk cfg m
  | .alias _ (.error _) => false
  | .alias _ (.ok mods) => mods.all (modOk cfg)

/-- With an exhausted allocation oracle add_param always succeeds and
behaves like add_param_total. -/
theorem add_param_nil (name : String) (param ptype : Option String)
    (list : List Param) :
    add_param name param ptype list [] = (some (add_param_total name param ptype list), []) := by
  by_cases h : list.any (fun it => it.name == name) = true
  · simp [add_param, add_param_total, h]
  · simp [add_param, add_param_total, h]

/-- In filtered mode the loop emits exactly the bare values of the
matching pairs, touches neither the parameter list nor the allocation
oracle, raises no diagnostic and never takes the out-of-memory path. -/
theorem modinfo_loop_filtered (sep : Char) (f : String)
    (pairs : List (String × String)) (ps : List Param) (allocs : List Bool) :
    modinfo_loop ⟨sep, some f⟩ pairs ps allocs =
      ⟨pairs.filterMap (fun kv => if kv.1 == f then some (kv.2.push sep) else none),
        [], ps, allocs, false⟩ := by
  induction pairs with
  | nil => rfl
  | cons kv rest ih =>
    obtain ⟨key, value⟩ := kv
    by_cases h : key = f
    · simp [modinfo_loop, List.filterMap_cons, h, ih]
    · simp [modinfo_loop, List.filterMap_cons, h, ih]

/-- In default mode with every allocation succeeding, the loop emits one
line per non-parameter pair, one diagnostic per malformed parameter
record, and folds the parameter records into the list with paramStep. -/
theorem modinfo_loop_default (sep : Char) (pairs : List (String × String))
    (ps : List Param) :
    modinfo_loop ⟨sep, none⟩ pairs ps [] =
      ⟨pairs.filterMap (defaultLine sep), pairs.filterMap defaultErr,
        pairs.foldl paramStep ps, [], false⟩ := by
  induction pairs generalizing ps with
  | nil => rfl
  | cons kv rest ih =>
    obtain ⟨key, value⟩ := kv
    by_cases hp : key = "parm" ∨ key = "parmtype"
    · cases hs : splitFirst ':' value with
      | none =>
        simp [modinfo_loop, List.filterMap_cons, defaultLine, defaultErr,
          paramStep, hp, hs, ih]
      | some nr =>
        simp [modinfo_loop, List.filterMap_cons, defaultLine, defaultErr,
          paramStep, hp, hs, ih, add_param_nil]
    · by_cases hz : sep = Char.ofNat 0
      · subst hz
        simp [modinfo_loop, List.filterMap_cons, defaultLine, defaultErr,
          paramStep, hp, ih]
      · simp [modinfo_loop, List.filterMap_cons, defaultLine, defaultErr,
          paramStep, hp, hz, ih]

/-- Updating an existing node leaves the sequence of names unchanged. -/
theorem update_first_names (name : String) (param ptype : Option String)
    (ps : List Param) :
    (update_first name param ptype ps).map Param.name = ps.map Param.name := by
  induction ps with
  | nil => rfl
  | cons it rest ih =>
    by_cases h : it.name = name
    · simp [update_first, h, set_fields]
    · simp [update_first, h, ih]

/-- add_param_total transforms the sequence of names by prepending the
looked-up name when it is new and keeping the sequence otherwise. -/
theorem add_param_total_names (name : String) (param ptype : Option String)
    (ps : List Param) :
    (add_param_total name param ptype ps).map Param.name
      = seenStep (ps.map Param.name) name := by
  by_cases h : ps.any (fun it => it.name == name) = true
  · have hmem : name ∈ ps.map Param.name := by
      rcases List.any_eq_true.mp h with ⟨it, hit, hname⟩
      exact List.mem_map.mpr ⟨it, hit, by simpa using hname⟩
    simp [add_param_total, h, seenStep, hmem, update_first_names]
  · have hmem : name ∉ ps.map Param.name := by
      intro hc
      rcases List.mem_map.mp hc with ⟨it, hit, hname⟩
      exact h (List.any_eq_true.mpr ⟨it, hit, by simpa using hname⟩)
    simp [add_param_total, h, seenStep, hmem, set_fields]

/-- Folding the parameter records of a pair list over the parameter list
acts on names as folding seenStep over the well-formed record names. -/
theorem foldl_paramStep_names (pairs : List (String × String))
    (ps : List Param) :
    (pairs.foldl paramStep ps).map Param.name
      = (wfParamNames pairs).foldl seenStep (ps.map Param.name) := by
  induction pairs generalizing ps with
  | nil => rfl
  | cons kv rest ih =>
    by_cases hp : kv.1 = "parm" ∨ kv.1 = "parmtype"
    · cases hs : splitFirst ':' kv.2 with
      | none => simp [paramStep, wfParamNames, hp, hs, ih]
      | some nr =>
        simp [paramStep, wfParamNames, hp, hs, ih, add_param_total_names]
    · simp [paramStep, wfParamNames, hp, ih]

/-- Folding seenStep is folding firstSeenStep on the reversed
accumulator, reversed. -/
theorem foldl_seenStep_reverse (ns : List String) (acc : List String) :
    ns.foldl seenStep acc = (ns.foldl firstSeenStep acc.reverse).reverse := by
  induction ns generalizing acc with
  | nil => simp
  | cons n rest ih =>
    have key : (seenStep acc n).reverse = firstSeenStep acc.reverse n := by
      unfold seenStep firstSeenStep
      by_cases h : n ∈ acc
      · simp [h]
      · simp [h]
    rw [List.foldl_cons, List.foldl_cons, ih (seenStep acc n), key]

/-- Folding seenStep preserves freedom from duplicates. -/
theorem foldl_seenStep_nodup (ns : List String) (acc : List String)
    (h : acc.Nodup) : (ns.foldl seenStep acc).Nodup := by
  induction ns generalizing acc with
  | nil => exact h
  | cons n rest ih =>
    rw [List.foldl_cons]
    apply ih
    unfold seenStep
    by_cases hm : n ∈ acc
    · simpa [hm]
    · simp [hm, h]

/-- With an exhausted allocation oracle, modinfo_do leaves the oracle
exhausted, and its return value is nonnegative exactly when the filename
filter short-circuits or metadata retrieval succeeds. -/
theorem modinfo_do_spec (cfg : RenderConfig) (m : ModInput)
    (h : modErrsNeg m = true) :
    (modinfo_do cfg m []).allocs = []
    ∧ ((0 ≤ (modinfo_do cfg m []).ret) ↔ modOk cfg m = true) := by
  rcases cfg with ⟨sep, field⟩
  rcases m with ⟨path, nm, info⟩
  cases field with
  | none =>
    cases info with
    | error e =>
      have he : e < 0 := by simpa [modErrsNeg] using h
      refine ⟨by simp [modinfo_do, modinfo_body], ?_⟩
      simp [modinfo_do, modinfo_body, modOk]
      omega
    | ok pairs =>
      refine ⟨by simp [modinfo_do, modinfo_body, modinfo_loop_default], ?_⟩
      simp [modinfo_do, modinfo_body, modOk, modinfo_loop_default]
  | some f =>
    by_cases hf : f = "filename"
    · subst hf
      refine ⟨by simp [modinfo_do], ?_⟩
      simp [modinfo_do, modOk]
    · cases info with
      | error e =>
        have he : e < 0 := by simpa [modErrsNeg] using h
        refine ⟨by simp [modinfo_do, hf, modinfo_body], ?_⟩
        simp [modinfo_do, hf, modinfo_body, modOk]
        omega
      | ok pairs =>
        refine ⟨by simp [modinfo_do, hf, modinfo_body, modinfo_loop_filtered], ?_⟩
        simp [modinfo_do, hf, modinfo_body, modOk, modinfo_loop_filtered]

/-- The alias loop: the oracle stays exhausted, the accumulated err is
nonnegative exactly when it started nonnegative and every module is ok,
and every module's output is appended in order. -/
theorem run_mods_spec (cfg : RenderConfig) (mods : List ModInput)
    (acc : DoResult) (hn : mods.all modErrsNeg = true) (ha : acc.allocs = []) :
    (run_mods cfg mods acc).allocs = []
    ∧ ((0 ≤ (run_mods cfg mods acc).ret) ↔
        (0 ≤ acc.ret ∧ mods.all (modOk cfg) = true))
    ∧ (run_mods cfg mods acc).out
        = acc.out ++ (mods.map (fun m => (modinfo_do cfg m []).out)).flatten := by
  induction mods generalizing acc with
  | nil => simp [run_mods, ha]
  | cons m rest ih =>
    rw [List.all_cons, Bool.and_eq_true] at hn
    obtain ⟨hm, hr⟩ := hn
    obtain ⟨hal, hret⟩ := modinfo_do_spec cfg m hm
    rw [run_mods, ha]
    obtain ⟨ih1, ih2, ih3⟩ :=
      ih ⟨acc.out ++ (modinfo_do cfg m []).out,
          acc.errs ++ (modinfo_do cfg m []).errs,
          if (modinfo_do cfg m []).ret < 0 then (modinfo_do cfg m []).ret
          else acc.ret,
          (modinfo_do cfg m []).allocs⟩ hr hal
    refine ⟨ih1, ?_, ?_⟩
    · rw [ih2]
      simp only [List.all_cons, Bool.and_eq_true]
      constructor
      · rintro ⟨h1, h2⟩
        by_cases hneg : (modinfo_do cfg m []).ret < 0
        · simp [hneg] at h1
          omega
        · simp [hneg] at h1
          exact ⟨h1, hret.mp (by omega), h2⟩
      · rintro ⟨h1, h2, h3⟩
        have := hret.mpr h2
        refine ⟨?_, h3⟩
        by_cases hneg : (modinfo_do cfg m []).ret < 0
        · omega
        · simp [hneg]
          exact h1
    · rw [ih3]
      simp [List.flatten]

/-- One identifier: the oracle stays exhausted and the result is
nonnegative exactly when the identifier is ok. -/
theorem runIdent_spec (cfg : RenderConfig) (i : Ident)
    (h : identErrsNeg i = true) :
    (runIdent cfg i []).allocs = []
    ∧ ((0 ≤ (runIdent cfg i []).ret) ↔ identOk cfg i = true) := by
  cases i with
  | file p res =>
    cases res with
    | error e =>
      have he : e < 0 := by simpa [identErrsNeg] using h
      refine ⟨by simp [runIdent, modinfo_path_do], ?_⟩
      simp [runIdent, modinfo_path_do, identOk]
      omega
    | ok m =>
      have hm : modErrsNeg m = true := by simpa [identErrsNeg] using h
      obtain ⟨h1, h2⟩ := modinfo_do_spec cfg m hm
      exact ⟨by simpa [runIdent, modinfo_path_do] using h1,
        by simpa [runIdent, modinfo_path_do, identOk] using h2⟩
  | _ n res =>
    cases res with
    | error e =>
      have he : e < 0 := by simpa [identErrsNeg] using h
      refine ⟨by simp [runIdent, modinfo_alias_do], ?_⟩
      simp [runIdent, modinfo_alias_do, identOk]
      omega
    | ok mods =>
      have hm : mods.all modErrsNeg = true := by simpa [identErrsNeg] using h
      obtain ⟨h1, h2, h3⟩ := run_mods_spec cfg mods ⟨[], [], 0, []⟩ hm rfl
      refine ⟨by simpa [runIdent, modinfo_alias_do] using h1, ?_⟩
      have : (0 ≤ (run_mods cfg mods ⟨[], [], 0, []⟩).ret) ↔
          mods.all (modOk cfg) = true := by
        rw [h2]
        simp
      simpa [runIdent, modinfo_alias_do, identOk] using this

/-- The main loop: the oracle stays exhausted, the accumulated err is
nonnegative exactly when it started nonnegative and every identifier is
ok, and every identifier's output is appended in order regardless of
earlier failures. -/
theorem main_run_spec (cfg : RenderConfig) (ids : List Ident)
    (acc : DoResult) (hn : ids.all identErrsNeg = true) (ha : acc.allocs = []) :
    (main_run cfg ids acc).allocs = []
    ∧ ((0 ≤ (main_run cfg ids acc).ret) ↔
        (0 ≤ acc.ret ∧ ids.all (identOk cfg) = true))
    ∧ (main_run cfg ids acc).out
        = acc.out ++ (ids.map (fun i => (runIdent cfg i []).out)).flatten := by
  induction ids generalizing acc with
  | nil => simp [main_run, ha]
  | cons i rest ih =>
    rw [List.all_cons, Bool.and_eq_true] at hn
    obtain ⟨hi, hr⟩ := hn
    obtain ⟨hal, hret⟩ := runIdent_spec cfg i hi
    rw [main_run, ha]
    obtain ⟨ih1, ih2, ih3⟩ :=
      ih ⟨acc.out ++ (runIdent cfg i []).out,
          acc.errs ++ (runIdent cfg i []).errs,
          if (runIdent cfg i []).ret < 0 then (runIdent cfg i []).ret
          else acc.ret,
          (runIdent cfg i []).allocs⟩ hr hal
    refine ⟨ih1, ?_, ?_⟩
    · rw [ih2]
      simp only [List.all_cons, Bool.and_eq_true]
      constructor
      · rintro ⟨h1, h2⟩
        by_cases hneg : (runIdent cfg i []).ret < 0
        · simp [hneg] at h1
          omega
        · simp [hneg] at h1
          exact ⟨h1, hret.mp (by omega), h2⟩
      · rintro ⟨h1, h2, h3⟩
        have := hret.mpr h2
        refine ⟨?_, h3⟩
        by_cases hneg : (runIdent cfg i []).ret < 0
        · omega
        · simp [hneg]
          exact h1
    · rw [ih3]
      simp [List.flatten]

/-- C1: the code does not produce the output the claim predicts.  On the
spec's example input the merged parameter line is
`parm:           debug:bool`: because the loop compares the key against
"param" instead of "parm", the description of a "parm" record is stored
in the type field and then overwritten by the "parmtype" record, so the
`name description (type)` rendering never happens. -/
theorem C1_actual_output :
    (modinfo_do ⟨'\n', none⟩
        ⟨"/lib/modules/x/foo.ko", "foo",
          Except.ok [("author", "A. One"), ("parm", "debug:enable debug"),
            ("parmtype", "debug:bool")]⟩ []).out
      = ["filename:       /lib/modules/x/foo.ko\n",
          "author:         A. One\n",
          "parm:           debug:bool\n"]
    ∧ ("parm:           debug:bool\n" : String)
        ≠ "parm:           debug enable debug (bool)\n" := by
  exact ⟨by decide, by decide⟩

/-- C2, counterexample: with two distinct well-formed "parm" records the
table is rendered in reverse first-seen order (b before a), not in
first-seen order as the claim states, because add_param prepends new
entries to the list head. -/
theorem C2_counterexample :
    (modinfo_do ⟨'\n', none⟩
        ⟨"p", "m", Except.ok [("parm", "a:1"), ("parm", "b:2")]⟩ []).out
      = ["filename:       p\n", "parm:           b:2\n", "parm:           a:1\n"]
    ∧ (modinfo_do ⟨'\n', none⟩
        ⟨"p", "m", Except.ok [("parm", "a:1"), ("parm", "b:2")]⟩ []).out
      ≠ ["filename:       p\n", "parm:           a:1\n", "parm:           b:2\n"] := by
  exact ⟨by decide, by decide⟩

/-- C2, amended: after aggregation the table holds exactly one entry per
distinct name of a well-formed "parm" or "parmtype" record (byte-exact
match), a new entry is prepended to the front of the sequence on first
sighting, and the table is rendered in that reverse first-seen order:
the name sequence equals the reverse of the distinct record names in
first-seen order, it has no duplicates, and default-mode output renders
the table in exactly that list order. -/
theorem C2_amended (sep : Char) (path nm : String)
    (pairs : List (String × String)) :
    ((modinfo_loop ⟨sep, none⟩ pairs [] []).params.map Param.name
        = (firstSeen (wfParamNames pairs)).reverse)
    ∧ ((modinfo_loop ⟨sep, none⟩ pairs [] []).params.map Param.name).Nodup
    ∧ (modinfo_do ⟨sep, none⟩ ⟨path, nm, Except.ok pairs⟩ []).out
        = ((leftJustify "filename:" 16 ++ path).push sep)
          :: pairs.filterMap (defaultLine sep)
          ++ render_params sep ((modinfo_loop ⟨sep, none⟩ pairs [] []).params) := by
  have hnames : (modinfo_loop ⟨sep, none⟩ pairs [] []).params.map Param.name
      = (wfParamNames pairs).foldl seenStep [] := by
    rw [modinfo_loop_default]
    simpa using foldl_paramStep_names pairs []
  refine ⟨?_, ?_, ?_⟩
  · rw [hnames, foldl_seenStep_reverse, firstSeen]
    simp
  · rw [hnames]
    exact foldl_seenStep_nodup _ _ List.nodup_nil
  · simp [modinfo_do, modinfo_body, modinfo_loop_default]

/-- C3: merging is not commutative.  Presenting the "parm" record before
the "parmtype" record for the same name yields type "bool"; presenting
them in the opposite order yields type "enable debug".  Both record kinds
store their text in the type field, because the loop compares the key
against "param" (which never matches) instead of "parm", so the last
record always wins. -/
theorem C3_order_dependent :
    (modinfo_loop ⟨'\n', none⟩
        [("parm", "debug:enable debug"), ("parmtype", "debug:bool")] [] []).params
      = [⟨"debug", none, some "bool"⟩]
    ∧ (modinfo_loop ⟨'\n', none⟩
        [("parmtype", "debug:bool"), ("parm", "debug:enable debug")] [] []).params
      = [⟨"debug", none, some "enable debug"⟩]
    ∧ (modinfo_loop ⟨'\n', none⟩
        [("parm", "debug:enable debug"), ("parmtype", "debug:bool")] [] []).params
      ≠ (modinfo_loop ⟨'\n', none⟩
        [("parmtype", "debug:bool"), ("parm", "debug:enable debug")] [] []).params := by
  exact ⟨by decide, by decide, by decide⟩

/-- C4, counterexample: in default mode with the NUL separator the
synthetic filename line is still emitted in the colon-style 16-column
padded key form, so not every key-bearing line has the form key=value. -/
theorem C4_counterexample :
    ∃ line ∈ (modinfo_do ⟨Char.ofNat 0, none⟩ ⟨"p", "m", Except.ok []⟩ []).out,
      ∃ k v, line = leftJustify (k ++ ":") 16 ++ v := by
  refine ⟨(leftJustify "filename:" 16 ++ "p").push (Char.ofNat 0), by decide,
    "filename", "p".push (Char.ofNat 0), by decide⟩

/-- C4, amended: in default mode with the NUL separator every line
derived from a non-parameter RawPair has the form key=value, while the
synthetic filename line and the merged parameter lines keep the
colon-style 16-column padded key form. -/
theorem C4_amended (path nm : String) (pairs : List (String × String)) :
    (modinfo_do ⟨Char.ofNat 0, none⟩ ⟨path, nm, Except.ok pairs⟩ []).out
      = ((leftJustify "filename:" 16 ++ path).push (Char.ofNat 0))
        :: pairs.filterMap (fun kv =>
            if kv.1 == "parm" || kv.1 == "parmtype" then none
            else some ((kv.1 ++ "=" ++ kv.2).push (Char.ofNat 0)))
        ++ render_params (Char.ofNat 0)
            ((modinfo_loop ⟨Char.ofNat 0, none⟩ pairs [] []).params) := by
  have hfun : defaultLine (Char.ofNat 0) = fun kv =>
      if kv.1 == "parm" || kv.1 == "parmtype" then none
      else some ((kv.1 ++ "=" ++ kv.2).push (Char.ofNat 0)) := by
    funext kv
    simp [defaultLine]
  simp [modinfo_do, modinfo_body, modinfo_loop_default, hfun]

/-- C5, counterexample: a malformed parameter record and an allocation
failure are both reported to the error stream, yet the process exit
status is 0, contradicting the claim that any error of kind
MalformedParameterRecord or allocation failure makes it non-zero. -/
theorem C5_counterexample :
    main_exit ⟨'\n', none⟩
        [Ident.file "p" (Except.ok ⟨"p", "m", Except.ok [("parm", "bad")]⟩)] [] = 0
    ∧ (main_run ⟨'\n', none⟩
        [Ident.file "p" (Except.ok ⟨"p", "m", Except.ok [("parm", "bad")]⟩)]
        ⟨[], [], 0, []⟩).errs = [Diag.invalidParam "parm" "bad"]
    ∧ main_exit ⟨'\n', none⟩
        [Ident.file "p" (Except.ok ⟨"p", "m", Except.ok [("parm", "a:1")]⟩)]
        [false] = 0
    ∧ (main_run ⟨'\n', none⟩
        [Ident.file "p" (Except.ok ⟨"p", "m", Except.ok [("parm", "a:1")]⟩)]
        ⟨[], [], 0, [false]⟩).errs = [Diag.oom] := by
  refine ⟨?_, ?_, ?_, ?_⟩ <;> rfl

/-- C5, amended: provided all embedded resolution error codes are
negative, the exit status is 0 exactly when every identifier resolved and
every rendered module's metadata retrieval succeeded (or was skipped by
the filename filter); malformed parameter records and allocation failures
do not affect the exit status, and every identifier's output is emitted
regardless of earlier failures (no short-circuit). -/
theorem C5_amended (cfg : RenderConfig) (ids : List Ident)
    (h : ids.all identErrsNeg = true) :
    (main_exit cfg ids [] = 0 ↔ ids.all (identOk cfg) = true)
    ∧ (main_run cfg ids ⟨[], [], 0, []⟩).out
        = (ids.map (fun i => (runIdent cfg i []).out)).flatten := by
  obtain ⟨h1, h2, h3⟩ := main_run_spec cfg ids ⟨[], [], 0, []⟩ h rfl
  refine ⟨?_, by simpa using h3⟩
  unfold main_exit
  simp only [ge_iff_le]
  by_cases hret : 0 ≤ (main_run cfg ids ⟨[], [], 0, []⟩).ret
  · simp only [hret, if_true]
    simp only [true_iff]
    have := h2.mp hret
    exact this.2
  · simp only [hret, if_false]
    constructor
    · intro hc
      exact absurd hc (by norm_num)
    · intro hall
      exact absurd (h2.mpr ⟨by norm_num, hall⟩) hret

/-- C5, witness for the amended theorem at a concrete failing
identifier. -/
theorem C5_witness :
    ((main_exit ⟨'\n', none⟩ [Ident.file "p" (Except.error (-2 : Int))] [] = 0)
        ↔ ([Ident.file "p" (Except.error (-2 : Int))].all
            (identOk ⟨'\n', none⟩) = true))
    ∧ (main_run ⟨'\n', none⟩ [Ident.file "p" (Except.error (-2 : Int))]
          ⟨[], [], 0, []⟩).out
        = ([Ident.file "p" (Except.error (-2 : Int))].map
            (fun i => (runIdent ⟨'\n', none⟩ i []).out)).flatten :=
  C5_amended ⟨'\n', none⟩ [Ident.file "p" (Except.error (-2 : Int))] (by decide)

/-- C6: in default mode, a "parm" or "parmtype" record whose value has no
colon is skipped: the loop result is exactly the result of processing the
remaining records from the same parameter list, with the diagnostic
prepended to the error stream, no output line, no entry created or
mutated, and all earlier-accumulated entries retained. -/
theorem C6_skips_malformed (sep : Char) (key value : String)
    (rest : List (String × String)) (ps : List Param) (allocs : List Bool)
    (hk : (key == "parm" || key == "parmtype") = true)
    (hc : splitFirst ':' value = none) :
    modinfo_loop ⟨sep, none⟩ ((key, value) :: rest) ps allocs
      = ⟨(modinfo_loop ⟨sep, none⟩ rest ps allocs).out,
          Diag.invalidParam key value
            :: (modinfo_loop ⟨sep, none⟩ rest ps allocs).errs,
          (modinfo_loop ⟨sep, none⟩ rest ps allocs).params,
          (modinfo_loop ⟨sep, none⟩ rest ps allocs).allocs,
          (modinfo_loop ⟨sep, none⟩ rest ps allocs).oom⟩ := by
  simp [modinfo_loop, hk, hc]

/-- C6, witness at a concrete malformed record. -/
theorem C6_witness :
    modinfo_loop ⟨'\n', none⟩ [("parm", "bad")] [] []
      = ⟨[], [Diag.invalidParam "parm" "bad"], [], [], false⟩ :=
  (C6_skips_malformed '\n' "parm" "bad" [] [] [] (by decide) (by decide)).trans
    (by decide)

/-- C7: in filtered mode with a filter different from "filename", the
result is exactly the bare values of the pairs whose key equals the
filter, in source order, each followed by the separator, with no
diagnostics; when no pair matches the output is empty and no error is
raised (the return value stays the nonnegative count of records). -/
theorem C7_filtered (f : String) (sep : Char) (path nm : String)
    (pairs : List (String × String)) (hf : f ≠ "filename") :
    modinfo_do ⟨sep, some f⟩ ⟨path, nm, Except.ok pairs⟩ []
      = ⟨pairs.filterMap
          (fun kv => if kv.1 == f then some (kv.2.push sep) else none),
          [], (pairs.length : Int), []⟩ := by
  simp [modinfo_do, hf, modinfo_body, modinfo_loop_filtered]

/-- C7, witness at a concrete multi-valued key with a non-matching pair. -/
theorem C7_witness :
    modinfo_do ⟨'\n', some "depends"⟩
        ⟨"p", "m", Except.ok [("depends", "a"), ("x", "y"), ("depends", "b")]⟩ []
      = ⟨["a\n", "b\n"], [], 3, []⟩ :=
  (C7_filtered "depends" '\n' "p" "m"
      [("depends", "a"), ("x", "y"), ("depends", "b")] (by decide)).trans
    (by decide)

/-- C8: in filtered mode with the filter equal to "filename", the result
is exactly one line with the module's resolved path followed by the
separator, no diagnostics, return value 0, and an untouched allocation
oracle, for every module and every raw pair content. -/
theorem C8_filename_filter (sep : Char) (m : ModInput) (allocs : List Bool) :
    modinfo_do ⟨sep, some "filename"⟩ m allocs
      = ⟨[m.path.push sep], [], 0, allocs⟩ := by
  simp [modinfo_do]

/-- C9: with the "filename" filter, metadata retrieval is never consulted:
the result does not depend on the info component at all, and a module
whose metadata retrieval would fail still yields its path line with
per-module result 0. -/
theorem C9_filename_skips_info (sep : Char) (path nm : String) (e : Int)
    (allocs : List Bool)
    (info1 info2 : Except Int (List (String × String))) :
    (modinfo_do ⟨sep, some "filename"⟩ ⟨path, nm, Except.error e⟩ allocs
        = ⟨[path.push sep], [], 0, allocs⟩)
    ∧ modinfo_do ⟨sep, some "filename"⟩ ⟨path, nm, info1⟩ allocs
        = modinfo_do ⟨sep, some "filename"⟩ ⟨path, nm, info2⟩ allocs := by
  constructor
  · simp [modinfo_do]
  · simp [modinfo_do]

/-- C10: in filtered mode with the literal filter "parm" or "parmtype",
every matching pair's raw value is emitted verbatim in source order (the
parameter name and any colon included), with no merging, no colon
validation and no diagnostic even for a malformed value, because the
filter branch runs before the parameter-parsing branch. -/
theorem C10_literal_parm_filter (sep : Char) (path nm : String)
    (pairs : List (String × String)) :
    (modinfo_do ⟨sep, some "parm"⟩ ⟨path, nm, Except.ok pairs⟩ []
        = ⟨pairs.filterMap
            (fun kv => if kv.1 == "parm" then some (kv.2.push sep) else none),
            [], (pairs.length : Int), []⟩)
    ∧ (modinfo_do ⟨sep, some "parmtype"⟩ ⟨path, nm, Except.ok pairs⟩ []
        = ⟨pairs.filterMap
            (fun kv => if kv.1 == "parmtype" then some (kv.2.push sep) else none),
            [], (pairs.length : Int), []⟩) := by
  have h1 : ("parm" : String) ≠ "filename" := by decide
  have h2 : ("parmtype" : String) ≠ "filename" := by decide
  constructor
  · simp [modinfo_do, h1, modinfo_body, modinfo_loop_filtered]
  · simp [modinfo_do, h2, modinfo_body, modinfo_loop_filtered]

end Modinfo
